import Mathlib

/-!
Verification of the solar-plant PR/GHI data-processing pipeline (src/script.py).

Modelling conventions of the shallow embedding:
* Calendar dates are integer day numbers, with day 0 = 2019-07-01 (the budget
  anchor date `pd.Timestamp("2019-07-01")` of `get_budget`).  Under this
  encoding 2020-07-01 is day 366 (2020 is a leap year) and 2020-07-02 is
  day 367.  Python's floor division `//` on day differences is `Int.fdiv`.
* Numeric measurement values are exact rationals; a pandas `NaN` cell is
  `Option.none`.
* A `MFile` models one CSV file as seen by `preprocess_data`: its category
  folder (`PR` or `GHI`), the outcome of parsing its name as a date
  (`none` when `datetime.strptime` or `pd.read_csv` raises, which the code
  catches and skips), and the list of valid numeric cells obtained from
  `pd.to_numeric(... .values.flatten(), errors='coerce')` after dropping NaN,
  in flatten order.
-/

namespace SolarPR

/-- The two measurement categories, i.e. the two data sub-folders walked by
`preprocess_data`. -/
inductive Category where
  | PR : Category
  | GHI : Category
deriving DecidableEq, Repr

/-- One CSV file as consumed by `preprocess_data` (src/script.py lines 14-32). -/
structure MFile where
  category : Category
  /-- `some d` when the file name parses as a `YYYY-MM-DD` date (day number
  `d`) and the CSV is readable; `none` when an exception is raised and the
  file is skipped (lines 31-32). -/
  parsedDate : Option Int
  /-- The valid numeric cells of the CSV in flatten order (line 22-23). -/
  cells : List Rat
deriving DecidableEq, Repr

/-- A row of the combined DataFrame: one date with optional GHI and PR values
(src/script.py lines 34-36). -/
structure Record where
  date : Int
  ghi : Option Rat
  pr : Option Rat
deriving DecidableEq, Repr

/-- `data_dict.setdefault(date, {})[folder] = value` writes `value` into the
category slot of the record (lines 26-29); `value` may be `none` when the file
had no valid numeric cell (line 24). -/
def setValue (r : Record) (c : Category) (v : Option Rat) : Record :=
  match c with
  | Category.PR => { r with pr := v }
  | Category.GHI => { r with ghi := v }

/-- Insert one observation into the insertion-ordered date dictionary,
mirroring `data_dict.setdefault(date, {})[folder] = value`: an existing entry
for the date is updated in place, a new date is appended. -/
def insertObs : List Record → Int → Category → Option Rat → List Record
  | [], d, c, v => [setValue { date := d, ghi := none, pr := none } c v]
  | r :: rs, d, c, v =>
      if r.date = d then setValue r c v :: rs else r :: insertObs rs d c v

/-- Process one file (src/script.py lines 14-32): a file whose name fails the
date parse (or whose read raises) is skipped; otherwise
`value = first valid numeric cell, else None` is stored under its date and
category. -/
def processFile (dict : List Record) (f : MFile) : List Record :=
  match f.parsedDate with
  | none => dict
  | some d => insertObs dict d f.category f.cells.head?

/-- Fold all files into the date dictionary (`data_dict` of lines 9-32).
The input list carries the files in walk order (PR folder first, then GHI). -/
def buildDict (files : List MFile) : List Record :=
  files.foldl processFile []

/-- Insert a record into a list sorted by ascending date. -/
def insertByDate (r : Record) : List Record → List Record
  | [] => [r]
  | x :: xs => if r.date ≤ x.date then r :: x :: xs else x :: insertByDate r xs

/-- `df.sort_values("Date")` (line 43), modelled as insertion sort by date. -/
def sortByDate (l : List Record) : List Record :=
  l.foldr insertByDate []

/-- `preprocess_data` (src/script.py lines 8-49): build the date dictionary
from the files, turn it into rows and sort ascending by date.  When no row was
produced the empty DataFrame is returned (lines 38-40).  The
`pd.to_numeric(..., errors="coerce")` of lines 44-45 is the identity here
because values are already optional rationals. -/
def preprocess_data (files : List MFile) : List Record :=
  sortByDate (buildDict files)

/-- `get_budget` (src/script.py lines 61-65): `base = 73.9`,
`years = max(0, (date - start).days // 365)` with `start = 2019-07-01`
(day 0 in our encoding), result `base * (1 - 0.008) ** years`. -/
def get_budget (date : Int) : Rat :=
  73.9 * (1 - 0.008) ^ (max 0 (Int.fdiv (date - 0) 365)).toNat

/-- `get_color` (src/script.py lines 69-74): bucket a GHI value (NaN first)
into a point colour. -/
def get_color (ghi : Option Rat) : String :=
  match ghi with
  | none => "gray"
  | some g =>
      if g < 2 then "navy"
      else if g < 4 then "lightblue"
      else if g < 6 then "orange"
      else "brown"

/-- `df['PR'].rolling(window=30).mean()` (line 59): at each position `i` the
window is the 30 trailing positions `[i-29 .. i]`; with the default
`min_periods = 30` the mean is defined only when all 30 positions hold a
numeric value, and then equals their arithmetic mean. -/
def rolling30 (pr : List (Option Rat)) : List (Option Rat) :=
  (List.range pr.length).map fun i =>
    let w := ((pr.take (i + 1)).drop (i + 1 - 30)).filterMap id
    if w.length < 30 then none else some (w.sum / 30)

/-- A row of the augmented DataFrame handed to the renderer: the record plus
`PR_MA_30` (line 59), `Budget_PR` (line 67) and `Color` (line 76). -/
structure DPoint where
  date : Int
  ghi : Option Rat
  pr : Option Rat
  pr_ma_30 : Option Rat
  budget_pr : Rat
  color : String
deriving DecidableEq, Repr

/-- The derivation step of `plot_pr_graph` (lines 57-76): moving average,
budget curve and colour class are added to every record of the (date-sorted)
series. -/
def derive (s : List Record) : List DPoint :=
  (s.zip (rolling30 (s.map Record.pr))).map fun p =>
    { date := p.1.date
      ghi := p.1.ghi
      pr := p.1.pr
      pr_ma_30 := p.2
      budget_pr := get_budget p.1.date
      color := get_color p.1.ghi }

/-- `valid_df = df[df['PR'].notna()]` (line 78). -/
def validPoints (l : List DPoint) : List DPoint :=
  l.filter fun p => p.pr.isSome

/-- Boolean form of `PR > Budget_PR` on one row (a NaN PR compares false). -/
def prAboveBudget (p : DPoint) : Bool :=
  match p.pr with
  | some v => decide (p.budget_pr < v)
  | none => false

/-- `above_count = (valid_df['PR'] > valid_df['Budget_PR']).sum()` (line 79). -/
def above_count (l : List DPoint) : Nat :=
  ((validPoints l).filter prAboveBudget).length

/-- `total_count = len(valid_df)` (line 80). -/
def total_count (l : List DPoint) : Nat :=
  (validPoints l).length

/-- The above-budget fraction shown in the text label of lines 116-119,
abstracting the percent formatting: `some r` is the numeric branch
(`above_count/total_count = r`), `none` is the `"N/A"` branch taken when
`total_count` is zero. -/
def above_frac (l : List DPoint) : Option Rat :=
  if 0 < total_count l then some ((above_count l : Rat) / (total_count l : Rat))
  else none

/-- Rendering of the above-budget label (lines 116-120): the `"N/A"` string is
produced exactly when there is no valid point. -/
def aboveLabel (l : List DPoint) : String :=
  match above_frac l with
  | some _ => "Points above Target Budget PR = " ++ toString (above_count l) ++
      "/" ++ toString (total_count l)
  | none => "Points above Target Budget PR = N/A"

/-- Mean of a list of rationals; `none` on the empty list, mirroring pandas
`Series.mean()` which returns NaN when no numeric value contributes. -/
def listMean (l : List Rat) : Option Rat :=
  if l.isEmpty then none else some (l.sum / (l.length : Rat))

/-- `today = df['Date'].max()` (line 123). -/
def maxDate : List Record → Int
  | [] => 0
  | r :: rs => rs.foldl (fun m x => max m x.date) r.date

/-- `avg(days)` (line 124):
`df[df['Date'] > today - pd.Timedelta(days=days)]['PR'].mean()` — filter the
rows whose date exceeds `anchor - w`, take the PR column and average the
numeric (non-NaN) entries; NaN (here `none`) when none contributes. -/
def avg (s : List Record) (w : Int) : Option Rat :=
  listMean (((s.filter fun r => decide (maxDate s - w < r.date)).filterMap Record.pr))

/-- The candidate PR values of the trailing window as the spec words them:
records with a *defined* PR value whose date strictly exceeds
`anchor - w days`. -/
def specWindowPRs (s : List Record) (w : Int) : List Rat :=
  (s.filter fun r => r.pr.isSome && decide (maxDate s - w < r.date)).filterMap Record.pr

/-- Trailing-window average as worded by the spec: mean of the defined PR
values of the records inside the half-open window, undefined when none
contributes. -/
def trailingAvgSpec (s : List Record) (w : Int) : Option Rat :=
  listMean (specWindowPRs s w)

/-- `pr_lifetime = df['PR'].mean()` (line 126). -/
def pr_lifetime (s : List Record) : Option Rat :=
  listMean (s.filterMap Record.pr)

/-- Python's `round(x, 1)` on the budget milestones (lines 110-111); the exact
tie-breaking of Python's banker's rounding is irrelevant here because neither
milestone value is a tie. -/
def round1 (q : Rat) : Rat :=
  (round (q * 10) : Int) / 10

/-- `y1 = 73.9` (line 109). -/
def budget_y1 : Rat := 73.9

/-- `y2 = round(y1 * (1 - 0.008), 1)` (line 110). -/
def budget_y2 : Rat := round1 (budget_y1 * (1 - 0.008))

/-- `y3 = round(y1 * (1 - 0.008)**2, 1)` (line 111). -/
def budget_y3 : Rat := round1 (budget_y1 * (1 - 0.008) ^ 2)

/-- The structured chart description handed to the rendering backend by
`plot_pr_graph`: augmented points, the three budget milestones of the legend
text label (line 112), the above-budget fraction (lines 116-119), the five
trailing-window averages (line 125) and the lifetime average (line 126). -/
structure Chart where
  points : List DPoint
  milestones : Rat × Rat × Rat
  fracAbove : Option Rat
  windowAvgs : List (Option Rat)
  lifetime : Option Rat
deriving Repr

/-- `plot_pr_graph` (src/script.py lines 52-152): on an empty DataFrame it
prints and returns before any derivation (lines 53-55, modelled as `none`);
otherwise it derives the augmented points and assembles the chart
description. -/
def plot_pr_graph (s : List Record) : Option Chart :=
  if s.isEmpty then none
  else
    some
      { points := derive s
        milestones := (budget_y1, budget_y2, budget_y3)
        fracAbove := above_frac (derive s)
        windowAvgs := [7, 30, 60, 90, 365].map fun w => avg s w
        lifetime := pr_lifetime s }

/-- The whole run (lines 155-157): preprocess then plot. -/
def pipeline (files : List MFile) : Option Chart :=
  plot_pr_graph (preprocess_data files)

/-- Spec-level colour classes (spec section 3, `color_class` enum). -/
inductive ColorClass where
  | NoData : ColorClass
  | Low : ColorClass
  | MidLow : ColorClass
  | MidHigh : ColorClass
  | High : ColorClass
deriving DecidableEq, Repr

/-- Colour classification as worded by the spec: `ghi undefined → NoData;
ghi < 2 → Low; ghi < 4 → MidLow; ghi < 6 → MidHigh; else → High`. -/
def classifySpec (ghi : Option Rat) : ColorClass :=
  match ghi with
  | none => ColorClass.NoData
  | some g =>
      if g < 2 then ColorClass.Low
      else if g < 4 then ColorClass.MidLow
      else if g < 6 then ColorClass.MidHigh
      else ColorClass.High

/-- The colour string the script uses for each spec-level class. -/
def colorName : ColorClass → String
  | ColorClass.NoData => "gray"
  | ColorClass.Low => "navy"
  | ColorClass.MidLow => "lightblue"
  | ColorClass.MidHigh => "orange"
  | ColorClass.High => "brown"


/-! ## Helper lemmas -/

theorem rolling30_length (l : List (Option Rat)) : (rolling30 l).length = l.length := by
  simp [rolling30]

theorem setValue_date (r : Record) (c : Category) (v : Option Rat) :
    (setValue r c v).date = r.date := by
  cases c <;> rfl

/-! ## Claim theorems -/

/-- Claim C1: the budget value of a record date `d` is
`73.9 * (1 - 0.008) ^ years` with `years = floor((d - 2019-07-01) / 365)`
clamped to `≥ 0` (day 0 encodes 2019-07-01, day 367 encodes 2020-07-02);
hence `budget(2019-07-01) = 73.9`, `budget(2020-07-02) = 73.9 * 0.992`,
dates before the anchor use `years = 0`, the budget is non-increasing from the
anchor on, and `derive` computes it for every record of the series regardless
of PR/GHI availability. -/
theorem budget_decay_ok :
    get_budget 0 = 73.9 ∧
    get_budget 367 = 73.9 * (1 - 0.008) ∧
    (∀ d : Int, d < 0 → get_budget d = 73.9) ∧
    (∀ d₁ d₂ : Int, 0 ≤ d₁ → d₁ ≤ d₂ → get_budget d₂ ≤ get_budget d₁) ∧
    (∀ s : List Record,
      (derive s).map DPoint.budget_pr = s.map fun r => get_budget r.date) := by
  refine ⟨by with_unfolding_all rfl, by with_unfolding_all rfl, ?_, ?_, ?_⟩
  · intro d hd
    have h1 : Int.fdiv (d - 0) 365 ≤ 0 := by
      rw [Int.fdiv_eq_ediv _ (by norm_num)]
      simpa using Int.ediv_le_ediv (show (0:Int) < 365 by norm_num)
        (show d - 0 ≤ 0 by omega)
    have h2 : (max 0 (Int.fdiv (d - 0) 365)).toNat = 0 := by
      rw [max_eq_left h1]; rfl
    rw [get_budget, h2]
    norm_num
  · intro d₁ d₂ h1 h12
    have hy : (max 0 (Int.fdiv (d₁ - 0) 365)).toNat ≤
        (max 0 (Int.fdiv (d₂ - 0) 365)).toNat := by
      apply Int.toNat_le_toNat
      apply max_le_max le_rfl
      rw [Int.fdiv_eq_ediv _ (by norm_num), Int.fdiv_eq_ediv _ (by norm_num)]
      exact Int.ediv_le_ediv (by norm_num) (by omega)
    have hpow := pow_le_pow_of_le_one
      (show (0:Rat) ≤ 1 - 0.008 by norm_num)
      (show (1:Rat) - 0.008 ≤ 1 by norm_num) hy
    rw [get_budget, get_budget]
    exact mul_le_mul_of_nonneg_left hpow (by norm_num)
  · intro s
    have hlen : s.length ≤ (rolling30 (s.map Record.pr)).length := by
      rw [rolling30_length, List.length_map]
    rw [derive, List.map_map]
    have hfun : (DPoint.budget_pr ∘ fun p : Record × Option Rat =>
        ({ date := p.1.date, ghi := p.1.ghi, pr := p.1.pr, pr_ma_30 := p.2,
           budget_pr := get_budget p.1.date, color := get_color p.1.ghi } : DPoint)) =
        (fun r : Record => get_budget r.date) ∘ Prod.fst := rfl
    rw [hfun, ← List.map_map, List.map_fst_zip _ _ hlen]

/-- Witness for C1 at concrete inputs: day 370 is after the anchor and not
later than day 800, so the budget at day 800 does not exceed the budget at
day 370; before the anchor (day -3) the budget is the nameplate 73.9. -/
theorem budget_decay_ok_witness :
    get_budget 800 ≤ get_budget 370 ∧ get_budget (-3) = 73.9 :=
  ⟨budget_decay_ok.2.2.2.1 370 800 (by norm_num) (by norm_num),
   budget_decay_ok.2.2.1 (-3) (by norm_num)⟩

/-- Claim C4, counterexample: a Series holding exactly one record, dated at
the anchor with PR 50, has a *defined* 7-day trailing average (equal to 50):
the anchor record does satisfy `date > anchor - 7 days`, contradicting the
claim that no record satisfies the strict inequality. -/
theorem single_anchor_avg_cex :
    avg [{ date := 0, ghi := none, pr := some 50 }] 7 = some 50 ∧
    avg [{ date := 0, ghi := none, pr := some 50 }] 7 ≠ none := by
  have h : avg [{ date := 0, ghi := none, pr := some 50 }] 7 = some 50 := by
    with_unfolding_all rfl
  exact ⟨h, by rw [h]; exact Option.some_ne_none _⟩

/-- Claim C4, amended: for a Series containing exactly one record, dated at
the anchor (its own maximum date), the record satisfies
`date > anchor - 7 days`, so the 7-day trailing average equals the record's PR
value: it is defined (and equal to that value) whenever the PR is defined, and
undefined only when the PR itself is undefined. -/
theorem single_anchor_avg_amended (d : Int) (g : Option Rat) (p : Option Rat) :
    avg [{ date := d, ghi := g, pr := p }] 7 = p := by
  cases p with
  | none =>
      simp [avg, maxDate, listMean, List.filter, List.filterMap,
        show d - 7 < d by omega]
  | some v =>
      simp [avg, maxDate, listMean, List.filter, List.filterMap,
        show d - 7 < d by omega]

/-- Claim C6: the colour of a point is a total function of its GHI value that
factors through the five spec classes (`gray ↔ NoData`, `navy ↔ Low`,
`lightblue ↔ MidLow`, `orange ↔ MidHigh`, `brown ↔ High`), with an undefined
GHI mapping to `NoData`, `ghi < 2` to `Low`, `2 ≤ ghi < 4` to `MidLow`,
`4 ≤ ghi < 6` to `MidHigh`, `6 ≤ ghi` to `High`; in particular the boundary
values 2, 4 and 6 land in `MidLow`, `MidHigh` and `High`. -/
theorem color_class_ok :
    (∀ g : Option Rat, get_color g = colorName (classifySpec g)) ∧
    classifySpec none = ColorClass.NoData ∧
    (∀ v : Rat, v < 2 → classifySpec (some v) = ColorClass.Low) ∧
    (∀ v : Rat, 2 ≤ v → v < 4 → classifySpec (some v) = ColorClass.MidLow) ∧
    (∀ v : Rat, 4 ≤ v → v < 6 → classifySpec (some v) = ColorClass.MidHigh) ∧
    (∀ v : Rat, 6 ≤ v → classifySpec (some v) = ColorClass.High) ∧
    classifySpec (some 2) = ColorClass.MidLow ∧
    classifySpec (some 4) = ColorClass.MidHigh ∧
    classifySpec (some 6) = ColorClass.High := by
  refine ⟨?_, rfl, ?_, ?_, ?_, ?_, by norm_num [classifySpec],
    by norm_num [classifySpec], by norm_num [classifySpec]⟩
  · intro g
    cases g with
    | none => rfl
    | some v =>
        simp only [get_color, classifySpec]
        split_ifs <;> rfl
  · intro v hv
    simp [classifySpec, hv]
  · intro v h2 h4
    simp only [classifySpec]
    rw [if_neg (not_lt.2 h2), if_pos h4]
  · intro v h4 h6
    simp only [classifySpec]
    rw [if_neg (not_lt.2 (by linarith)), if_neg (not_lt.2 h4), if_pos h6]
  · intro v h6
    simp only [classifySpec]
    rw [if_neg (not_lt.2 (by linarith)), if_neg (not_lt.2 (by linarith)),
      if_neg (not_lt.2 h6)]

/-- Witness for C6 at concrete GHI values 1 and 5. -/
theorem color_class_ok_witness :
    classifySpec (some 1) = ColorClass.Low ∧
    classifySpec (some 5) = ColorClass.MidHigh :=
  ⟨color_class_ok.2.2.1 1 (by norm_num),
   color_class_ok.2.2.2.2.1 5 (by norm_num) (by norm_num)⟩

/-- Claim C10: on any non-empty series, the three budget milestone values put
into the legend text label are the year-1, year-2 and year-3 budget values of
the same decay formula `get_budget` (rounded to one decimal): the budget at
day 0 (= 2019-07-01, first day of year 1), day 365 (first day of year 2) and
day 730 (first day of year 3). -/
theorem budget_milestones_ok (s : List Record) (hs : s ≠ []) :
    (plot_pr_graph s).map Chart.milestones =
      some (round1 (get_budget 0), round1 (get_budget 365), round1 (get_budget 730)) := by
  have h : s.isEmpty = false := by
    simpa [List.isEmpty_iff] using hs
  simp only [plot_pr_graph, h, Bool.false_eq_true, if_false, Option.map_some']
  with_unfolding_all rfl

/-- Witness for C10 on a concrete one-record series. -/
theorem budget_milestones_ok_witness :
    (plot_pr_graph [{ date := 0, ghi := none, pr := none }]).map Chart.milestones =
      some (round1 (get_budget 0), round1 (get_budget 365), round1 (get_budget 730)) :=
  budget_milestones_ok _ (by simp)

set_option maxRecDepth 100000

/-- Claim C2: the 30-sample moving average at 0-based position `i` of the
date-sorted series is the arithmetic mean of the PR values at positions
`[i-29 .. i]` (positions, not calendar days): on a series whose PR values are
all defined it is undefined at every position `i < 29` and equals
`(sum of the 30 trailing values) / 30` from position 29 on; and on 35
sequential PR values all equal to 50 it is undefined at positions 0-28 and
exactly 50 at positions 29-34. -/
theorem moving_avg_ok (vs : List Rat) (i : Nat) (hi : i < vs.length) :
    (i < 29 → (rolling30 (vs.map some))[i]? = some none) ∧
    (29 ≤ i → (rolling30 (vs.map some))[i]? =
      some (some (((vs.drop (i - 29)).take 30).sum / 30))) ∧
    rolling30 (List.replicate 35 (some (50 : Rat))) =
      List.replicate 29 none ++ List.replicate 6 (some 50) := by
  have hget : (rolling30 (vs.map some))[i]? =
      some (if (((vs.take (i + 1)).drop (i + 1 - 30)).length < 30)
        then none
        else some ((((vs.take (i + 1)).drop (i + 1 - 30)).sum / 30))) := by
    have hw : (((vs.map some).take (i + 1)).drop (i + 1 - 30)).filterMap id =
        (vs.take (i + 1)).drop (i + 1 - 30) := by
      rw [← List.map_take, ← List.map_drop, List.filterMap_map]
      exact List.filterMap_some _
    rw [rolling30, List.getElem?_map,
      List.getElem?_range (by rw [List.length_map]; exact hi)]
    simp only [Option.map_some']
    rw [hw]
  refine ⟨?_, ?_, by with_unfolding_all rfl⟩
  · intro h29
    have h0 : i + 1 - 30 = 0 := by omega
    have hl : ((vs.take (i + 1)).drop (i + 1 - 30)).length < 30 := by
      rw [h0, List.drop_zero, List.length_take]
      exact lt_of_le_of_lt (min_le_left _ _) (by omega)
    rw [hget, if_pos hl]
  · intro h29
    have h30 : i + 1 - 30 = i - 29 := by omega
    have hl : ¬ (((vs.take (i + 1)).drop (i + 1 - 30)).length < 30) := by
      rw [List.length_drop, List.length_take, min_eq_left (by omega : i + 1 ≤ vs.length)]
      omega
    have heq : (vs.take (i + 1)).drop (i + 1 - 30) = (vs.drop (i - 29)).take 30 := by
      rw [h30, List.drop_take]
      congr 1
      omega
    rw [hget, if_neg hl, heq]

/-- Witness for C2: on the 35-value constant series the moving average at
position 29 is the mean of the 30 trailing values. -/
theorem moving_avg_ok_witness :
    (rolling30 ((List.replicate 35 (50 : Rat)).map some))[29]? =
      some (some ((((List.replicate 35 (50 : Rat)).drop (29 - 29)).take 30).sum / 30)) :=
  (moving_avg_ok (List.replicate 35 (50 : Rat)) 29 (by simp)).2.1 (le_refl 29)

/-- Dropping undefined-PR records before taking the PR column does not change
the PR column: the extra `isSome` guard of the spec's candidate set is
absorbed by the `filterMap`. -/
theorem filterMap_pr_filter (P : Record → Bool) (l : List Record) :
    (l.filter P).filterMap Record.pr =
      (l.filter fun r => r.pr.isSome && P r).filterMap Record.pr := by
  induction l with
  | nil => rfl
  | cons r rs ih =>
      by_cases hP : P r
      · cases hpr : r.pr with
        | none =>
            rw [List.filter_cons, List.filter_cons]
            simp [hP, hpr, List.filterMap_cons, ih]
        | some v =>
            rw [List.filter_cons, List.filter_cons]
            simp [hP, hpr, List.filterMap_cons, ih]
      · rw [List.filter_cons, List.filter_cons]
        simp [hP, ih]

/-- Claim C3: for every non-empty series and every window
`w ∈ {7, 30, 60, 90, 365}` days, `avg` equals the mean of the defined PR
values over exactly the records whose date strictly exceeds
`(maximum date) - w` (undefined-PR records excluded), and when that candidate
set contributes no defined PR value the result is the explicit undefined
value `none`, not an error. -/
theorem trailing_avg_ok (s : List Record) (hs : s ≠ []) (w : Int)
    (hw : w = 7 ∨ w = 30 ∨ w = 60 ∨ w = 90 ∨ w = 365) :
    avg s w = trailingAvgSpec s w ∧
    (specWindowPRs s w = [] → avg s w = none) := by
  have h : avg s w = trailingAvgSpec s w := by
    rw [avg, trailingAvgSpec, specWindowPRs, filterMap_pr_filter]
  refine ⟨h, fun he => ?_⟩
  rw [h, trailingAvgSpec, he]
  rfl

/-- Witness for C3 on a concrete one-record series and the 30-day window. -/
theorem trailing_avg_ok_witness :
    avg [{ date := 5, ghi := none, pr := some 60 }] 30 =
      trailingAvgSpec [{ date := 5, ghi := none, pr := some 60 }] 30 :=
  (trailing_avg_ok _ (by simp) 30 (Or.inr (Or.inl rfl))).1

/-- Claim C5: the above-budget count is taken only over records with a defined
PR value and counts those with PR strictly greater than the budget; the
fraction is `count / valid_count`, and a run with no valid point yields the
explicit `"N/A"` branch (`none`), not a division error.  On the four valid
points with PR `[80, 70, 73.9, 60]`, whose budget is 73.9 throughout, the
count is 1 (73.9 is not strictly greater than itself) and the fraction is
1/4. -/
theorem above_budget_ok :
    (∀ l : List DPoint, total_count l = 0 → above_frac l = none) ∧
    (∀ l : List DPoint,
      above_count l = (l.filter fun p => p.pr.isSome && prAboveBudget p).length) ∧
    (derive [{ date := 0, ghi := none, pr := some 80 },
      { date := 1, ghi := none, pr := some 70 },
      { date := 2, ghi := none, pr := some 73.9 },
      { date := 3, ghi := none, pr := some 60 }]).map DPoint.budget_pr =
        [73.9, 73.9, 73.9, 73.9] ∧
    above_count (derive [{ date := 0, ghi := none, pr := some 80 },
      { date := 1, ghi := none, pr := some 70 },
      { date := 2, ghi := none, pr := some 73.9 },
      { date := 3, ghi := none, pr := some 60 }]) = 1 ∧
    total_count (derive [{ date := 0, ghi := none, pr := some 80 },
      { date := 1, ghi := none, pr := some 70 },
      { date := 2, ghi := none, pr := some 73.9 },
      { date := 3, ghi := none, pr := some 60 }]) = 4 ∧
    above_frac (derive [{ date := 0, ghi := none, pr := some 80 },
      { date := 1, ghi := none, pr := some 70 },
      { date := 2, ghi := none, pr := some 73.9 },
      { date := 3, ghi := none, pr := some 60 }]) = some (1 / 4) := by
  refine ⟨?_, ?_, by with_unfolding_all rfl, by with_unfolding_all rfl,
    by with_unfolding_all rfl, by with_unfolding_all rfl⟩
  · intro l h
    simp [above_frac, h]
  · intro l
    rw [above_count, validPoints, List.filter_filter]
    congr 1
    exact List.filter_congr fun p _ => Bool.and_comm _ _

/-- Witness for C5: a series with no valid PR point renders the `"N/A"`
branch. -/
theorem above_budget_ok_witness : above_frac [] = none :=
  above_budget_ok.1 [] rfl


theorem mem_insertObs_map_date (l : List Record) (d : Int) (c : Category)
    (v : Option Rat) (x : Int) :
    x ∈ (insertObs l d c v).map Record.date ↔ x ∈ l.map Record.date ∨ x = d := by
  induction l with
  | nil => simp [insertObs, setValue_date]
  | cons r rs ih =>
      have e : insertObs (r :: rs) d c v =
          if r.date = d then setValue r c v :: rs else r :: insertObs rs d c v := rfl
      by_cases h : r.date = d
      · rw [e, if_pos h]
        subst h
        simp only [List.map_cons, List.mem_cons, setValue_date]
        tauto
      · rw [e, if_neg h]
        simp only [List.map_cons, List.mem_cons, ih]
        tauto

theorem nodup_insertObs_map_date (l : List Record) (d : Int) (c : Category)
    (v : Option Rat) (h : (l.map Record.date).Nodup) :
    ((insertObs l d c v).map Record.date).Nodup := by
  induction l with
  | nil => simp [insertObs, setValue_date]
  | cons r rs ih =>
      rw [List.map_cons, List.nodup_cons] at h
      have e : insertObs (r :: rs) d c v =
          if r.date = d then setValue r c v :: rs else r :: insertObs rs d c v := rfl
      by_cases hd : r.date = d
      · rw [e, if_pos hd, List.map_cons, List.nodup_cons, setValue_date]
        exact ⟨h.1, h.2⟩
      · rw [e, if_neg hd, List.map_cons, List.nodup_cons]
        refine ⟨?_, ih h.2⟩
        rw [mem_insertObs_map_date]
        exact fun hc => hc.elim h.1 hd

theorem foldl_processFile_nodup (fs : List MFile) :
    ∀ dict : List Record, (dict.map Record.date).Nodup →
      ((fs.foldl processFile dict).map Record.date).Nodup := by
  induction fs with
  | nil => intro dict h; simpa using h
  | cons f fs ih =>
      intro dict h
      rw [List.foldl_cons]
      apply ih
      cases hf : f.parsedDate with
      | none => simpa [processFile, hf] using h
      | some d =>
          simp only [processFile, hf]
          exact nodup_insertObs_map_date _ _ _ _ h

theorem buildDict_nodup (fs : List MFile) :
    ((buildDict fs).map Record.date).Nodup :=
  foldl_processFile_nodup fs [] (by simp)

theorem mem_foldl_processFile (fs : List MFile) :
    ∀ (dict : List Record) (d : Int),
      d ∈ (fs.foldl processFile dict).map Record.date ↔
        d ∈ dict.map Record.date ∨ ∃ f ∈ fs, f.parsedDate = some d := by
  induction fs with
  | nil => intro dict d; simp
  | cons f fs ih =>
      intro dict d
      rw [List.foldl_cons, ih]
      cases hf : f.parsedDate with
      | none =>
          simp only [processFile, hf, List.mem_cons]
          constructor
          · rintro (hd | ⟨g, hg, hgd⟩)
            · exact Or.inl hd
            · exact Or.inr ⟨g, Or.inr hg, hgd⟩
          · rintro (hd | ⟨g, (rfl | hg), hgd⟩)
            · exact Or.inl hd
            · rw [hf] at hgd; cases hgd
            · exact Or.inr ⟨g, hg, hgd⟩
      | some d' =>
        simp only [processFile, hf, mem_insertObs_map_date, List.mem_cons]
        constructor
        · rintro ((hd | rfl) | hex)
          · exact Or.inl hd
          · exact Or.inr ⟨f, Or.inl rfl, by rw [hf]⟩
          · rcases hex with ⟨g, hg, hgd⟩
            exact Or.inr ⟨g, Or.inr hg, hgd⟩
        · rintro (hd | ⟨g, (rfl | hg), hgd⟩)
          · exact Or.inl (Or.inl hd)
          · rw [hf] at hgd
            cases hgd
            exact Or.inl (Or.inr rfl)
          · exact Or.inr ⟨g, hg, hgd⟩

theorem mem_buildDict (fs : List MFile) (d : Int) :
    d ∈ (buildDict fs).map Record.date ↔ ∃ f ∈ fs, f.parsedDate = some d := by
  rw [buildDict, mem_foldl_processFile]
  simp

theorem insertByDate_perm (r : Record) (l : List Record) :
    (insertByDate r l).Perm (r :: l) := by
  induction l with
  | nil => exact List.Perm.refl _
  | cons x xs ih =>
      rw [insertByDate]
      by_cases h : r.date ≤ x.date
      · rw [if_pos h]
      · rw [if_neg h]
        exact (ih.cons x).trans (List.Perm.swap _ _ _)

theorem sortByDate_perm (l : List Record) : (sortByDate l).Perm l := by
  induction l with
  | nil => exact List.Perm.refl _
  | cons r rs ih =>
      rw [sortByDate, List.foldr_cons]
      exact (insertByDate_perm r _).trans (ih.cons r)

theorem insertByDate_pairwise (r : Record) (l : List Record)
    (h : List.Pairwise (fun a b => a.date ≤ b.date) l) :
    List.Pairwise (fun a b => a.date ≤ b.date) (insertByDate r l) := by
  induction l with
  | nil => simp [insertByDate]
  | cons x xs ih =>
      rw [List.pairwise_cons] at h
      rw [insertByDate]
      by_cases hr : r.date ≤ x.date
      · rw [if_pos hr]
        refine List.Pairwise.cons ?_ (List.Pairwise.cons h.1 h.2)
        intro y hy
        rcases List.mem_cons.mp hy with rfl | hy'
        · exact hr
        · exact le_trans hr (h.1 y hy')
      · rw [if_neg hr]
        refine List.Pairwise.cons ?_ (ih h.2)
        intro y hy
        rcases List.mem_cons.mp ((insertByDate_perm r xs).mem_iff.mp hy) with rfl | hy'
        · exact (not_le.mp hr).le
        · exact h.1 y hy'

theorem sortByDate_pairwise (l : List Record) :
    List.Pairwise (fun a b => a.date ≤ b.date) (sortByDate l) := by
  induction l with
  | nil => simp [sortByDate]
  | cons r rs ih =>
      rw [sortByDate, List.foldr_cons]
      exact insertByDate_pairwise r _ ih

/-- Claim C9: every Series returned by the ingestor is sorted strictly
ascending by date — in particular no two records share a date, the date being
the merge key of the dictionary. -/
theorem series_sorted_ok (fs : List MFile) :
    List.Pairwise (fun a b => a.date < b.date) (preprocess_data fs) := by
  have hle : List.Pairwise (fun a b : Record => a.date ≤ b.date) (preprocess_data fs) :=
    sortByDate_pairwise (buildDict fs)
  have hperm : (preprocess_data fs).Perm (buildDict fs) := sortByDate_perm _
  have hnodup : ((preprocess_data fs).map Record.date).Nodup :=
    ((hperm.map Record.date).symm).nodup (buildDict_nodup fs)
  have hne : List.Pairwise (fun a b : Record => a.date ≠ b.date) (preprocess_data fs) :=
    List.pairwise_map.mp hnodup
  exact (hle.and hne).imp fun h => lt_of_le_of_ne h.1 h.2

/-- Claim C7, counterexample: one PR file with a valid date (day 0) and zero
valid numeric cells produces a Series containing a record whose GHI *and* PR
are both missing — the all-missing date is materialized, contradicting the
claim. -/
theorem all_missing_record_cex :
    preprocess_data [{ category := Category.PR, parsedDate := some 0, cells := [] }] =
      [{ date := 0, ghi := none, pr := none }] ∧
    ∃ r ∈ preprocess_data
        [{ category := Category.PR, parsedDate := some 0, cells := [] }],
      r.ghi = none ∧ r.pr = none := by
  have h : preprocess_data
      [{ category := Category.PR, parsedDate := some 0, cells := [] }] =
      [{ date := 0, ghi := none, pr := none }] := by
    with_unfolding_all rfl
  refine ⟨h, ⟨{ date := 0, ghi := none, pr := none }, ?_, rfl, rfl⟩⟩
  rw [h]
  exact List.mem_singleton.mpr rfl

/-- Claim C7, amended: a date is materialized as a record exactly when some
file with that (successfully parsed) date was read, regardless of numeric
content — a file whose name parses but whose content has zero valid numeric
cells still materializes its date, storing a missing value for its category
(so a record with both GHI and PR missing can appear). -/
theorem materialized_dates_amended (fs : List MFile) (d : Int) :
    (∃ r ∈ preprocess_data fs, r.date = d) ↔ ∃ f ∈ fs, f.parsedDate = some d := by
  rw [← mem_buildDict]
  constructor
  · rintro ⟨r, hr, hd⟩
    exact List.mem_map.mpr ⟨r, (sortByDate_perm _).mem_iff.mp hr, hd⟩
  · intro h
    rcases List.mem_map.mp h with ⟨r, hr, hd⟩
    exact ⟨r, (sortByDate_perm _).mem_iff.mpr hr, hd⟩

/-- Witness for C7 (amended): a file parsed to day 0 with no numeric cell does
materialize a record with date 0. -/
theorem materialized_dates_amended_witness :
    ∃ r ∈ preprocess_data
        [{ category := Category.PR, parsedDate := some 0, cells := [] }],
      r.date = 0 :=
  (materialized_dates_amended
    [{ category := Category.PR, parsedDate := some 0, cells := [] }] 0).mpr
    ⟨{ category := Category.PR, parsedDate := some 0, cells := [] },
      List.mem_singleton.mpr rfl, rfl⟩

theorem foldl_processFile_skipped (fs : List MFile) :
    ∀ dict : List Record, (∀ f ∈ fs, f.parsedDate = none) →
      fs.foldl processFile dict = dict := by
  induction fs with
  | nil => intro dict _; rfl
  | cons f fs ih =>
      intro dict h
      rw [List.foldl_cons,
        show processFile dict f = dict from by
          simp [processFile, h f (List.mem_cons_self f fs)]]
      exact ih dict fun g hg => h g (List.mem_cons_of_mem _ hg)

/-- Claim C8: when no valid file is found in either category (every walked
file fails its date parse, in particular when there are no files at all), the
ingestor returns the explicitly empty Series and the pipeline short-circuits:
`plot_pr_graph` returns its empty-result marker before any derivation, and no
error is raised. -/
theorem empty_input_ok (fs : List MFile) (h : ∀ f ∈ fs, f.parsedDate = none) :
    preprocess_data fs = [] ∧ pipeline fs = none := by
  have hb : buildDict fs = [] := foldl_processFile_skipped fs [] h
  have hp : preprocess_data fs = [] := by rw [preprocess_data, hb]; rfl
  exact ⟨hp, by rw [pipeline, hp]; rfl⟩

/-- Witness for C8: a run whose only file has an unparseable name yields the
empty Series and no chart. -/
theorem empty_input_ok_witness :
    preprocess_data [{ category := Category.GHI, parsedDate := none, cells := [3] }] = [] ∧
    pipeline [{ category := Category.GHI, parsedDate := none, cells := [3] }] = none :=
  empty_input_ok _ (by simp)

end SolarPR
